import Mathlib

/-!
# Live-voting server: shallow embedding and verification

A shallow embedding of the session-orchestration core of a live voting
server (an Express/socket.io application) together with its client-side
reconciliation layer, and proofs about the embedded operations.

Server state lives in a handful of module-level mutable values
(`currentVotingSession`, `participants`, `categories`, `participantVotes`,
`deviceVotes`, `voteQueue`) plus two sqlite tables (`categories`, `votes`).
JavaScript `Map`s and plain objects are embedded as association lists that
preserve insertion order (a `Map` keeps keys in insertion order; setting an
existing key keeps its position, a fresh key is appended — exactly the
`jsSet`/`jsInc` helpers below). Each socket handler becomes a pure function
from the server state and its inputs to the new state, a result code and
the list of socket emissions it performs. `Date.now()` is threaded in as an
explicit `now : Nat` argument; uuid generation for session ids is threaded
as a counter. The asynchronous vote-queue drain (`processVoteQueue`) is
embedded as its own step, `processVoteBatch`, reflecting that in the source
it runs in later event-loop turns (its body suspends at `await`ed database
writes and reschedules itself with `setTimeout`), so other handlers can run
between a vote's admission and its drain.
-/

namespace LiveVoting

/-! ## JavaScript collection helpers -/

/-- Lookup in an insertion-ordered association list (`Map.get` /
object indexing). -/
def jsGet {α : Type} (m : List (String × α)) (k : String) : Option α :=
  (m.find? (fun p => p.1 == k)).map (·.2)

/-- Key-membership test (`Map.has` / truthiness of object indexing). -/
def jsHas {α : Type} (m : List (String × α)) (k : String) : Bool :=
  (m.find? (fun p => p.1 == k)).isSome

/-- `Map.set` / object assignment: an existing key keeps its position, a
fresh key is appended. -/
def jsSet {α : Type} (m : List (String × α)) (k : String) (v : α) :
    List (String × α) :=
  if jsHas m k then m.map (fun p => if p.1 == k then (k, v) else p)
  else m ++ [(k, v)]

/-- `if (!o[k]) o[k] = 0; o[k]++` on a tally object. -/
def jsInc (m : List (String × Nat)) (k : String) : List (String × Nat) :=
  jsSet m k (((jsGet m k).getD 0) + 1)

/-- `Object.values(results).reduce((sum, count) => sum + count, 0)`. -/
def sumCounts (results : List (String × Nat)) : Nat :=
  (results.map (·.2)).sum

/-! ## Data model -/

/-- One row of the sqlite `categories` table (seeded from the CSV import);
`options` is a nullable serialized list. -/
structure CategoryRow where
  id : String
  title : String
  description : String
  options : Option (List String)
deriving DecidableEq, Repr

/-- Lifecycle status of a category. The in-memory `categories` map holds no
entry for a category that was never started; `notStarted` is the status the
projections report for an absent entry. -/
inductive CatStatus
  | notStarted
  | active
  | completed
  | revealed
deriving DecidableEq, Repr

/-- `currentVotingSession.phase`. -/
inductive Phase
  | voting
  | completed
deriving DecidableEq, Repr

/-- An entry of the in-memory `categories` map. -/
structure CategoryState where
  status : CatStatus
  voteCount : Nat
  results : List (String × Nat)
  revealed : Bool
  startedAt : Option Nat
  completedAt : Option Nat
  revealedAt : Option Nat
deriving DecidableEq, Repr

/-- The `currentVotingSession` value (when non-null). -/
structure Session where
  id : Nat
  categoryId : String
  title : String
  description : String
  active : Bool
  startTime : Nat
  endTime : Option Nat
  results : List (String × Nat)
  options : List String
  phase : Phase
deriving DecidableEq, Repr

/-- A vote record as stored in the `participantVotes` and `deviceVotes`
dedup maps. -/
structure VoteRecord where
  categoryId : String
  voteOption : String
  participantId : String
  deviceId : String
  timestamp : Nat
deriving DecidableEq, Repr

/-- An entry of the in-memory `voteQueue` (no device id — the source pushes
only these four fields). -/
structure QueuedVote where
  categoryId : String
  voteOption : String
  participantId : String
  timestamp : Nat
deriving DecidableEq, Repr

/-- One committed row of the sqlite `votes` table. -/
structure DbVote where
  categoryId : String
  voteOption : String
  participantId : String
deriving DecidableEq, Repr

/-- A participant client's `viewState`. -/
inductive ViewState
  | waiting
  | voting
  | voted
  | sessionComplete
deriving DecidableEq, Repr

/-- An entry of the server's `participants` map. -/
structure Participant where
  id : String
  name : String
  hasVoted : Bool
  currentCategoryId : Option String
  viewState : ViewState
deriving DecidableEq, Repr

/-- The whole mutable server state: module-level values plus the two
sqlite tables the handlers touch. -/
structure ServerState where
  dbCategories : List CategoryRow
  currentVotingSession : Option Session
  participants : List (String × Participant)
  categories : List (String × CategoryState)
  participantVotes : List (String × VoteRecord)
  deviceVotes : List (String × VoteRecord)
  voteQueue : List QueuedVote
  committedVotes : List DbVote
  nextSessionId : Nat
deriving DecidableEq, Repr

/-- The status the server's projections report for a category: the map
entry's status, or `notStarted` when the map has no entry. -/
def statusOf (σ : ServerState) (categoryId : String) : CatStatus :=
  match jsGet σ.categories categoryId with
  | some st => st.status
  | none => .notStarted

/-- `currentVotingSession && currentVotingSession.active`. -/
def sessionActive (σ : ServerState) : Bool :=
  match σ.currentVotingSession with
  | some s => s.active
  | none => false

/-- Number of sessions with `active = true`: the source keeps a single
nullable `currentVotingSession` value, so this is 0 or 1 by construction. -/
def activeSessionCount (σ : ServerState) : Nat :=
  match σ.currentVotingSession with
  | some s => if s.active then 1 else 0
  | none => 0

/-! ## Socket emissions -/

/-- Where an emission goes: the admin room, the participant voting room,
the requesting socket, or (`io.emit`) every connected client. -/
inductive Target
  | admin
  | voting
  | caller
  | all
deriving DecidableEq, Repr

/-- The winner value the reveal handler builds:
`winners.length === 1 ? winners[0] : winners` — a single string or the
array of tied options. -/
inductive JsWinner
  | single (o : String)
  | tied (l : List String)
deriving DecidableEq, Repr

/-- One socket emission: the event name plus the result-bearing parts of
its payload. `results` is the payload's top-level `results` field (`none`
when the payload has no such field), `catResults` collects any per-category
`results` fields nested in the payload. -/
structure Emit where
  target : Target
  event : String
  results : Option (List (String × Nat)) := none
  winner : Option JsWinner := none
  totalVotes : Option Nat := none
  catResults : List (List (String × Nat)) := []
deriving DecidableEq, Repr

/-- An error reply to the requesting socket. -/
def errEmit : Emit := { target := .caller, event := "error" }

/-- `sendAdminStatusUpdate()`: the admin-room `admin-status` event carries
the raw current session and every category's live results. -/
def adminStatusEmit (σ : ServerState) : Emit :=
  { target := .admin, event := "admin-status",
    results := σ.currentVotingSession.map (·.results),
    catResults := σ.dbCategories.map
      (fun c => (((jsGet σ.categories c.id).map (·.results)).getD [])) }

/-! ## Handlers -/

inductive SubmitResult
  | ok
  | noActiveSession
  | missingDeviceId
  | duplicateDeviceVote
  | duplicateParticipantVote
deriving DecidableEq, Repr

/-- The `submit-vote` handler. Checks, in source order: a session exists
and its phase is `voting`; a device id was supplied (the only falsy string
is `""`); the device dedup map has no entry for `deviceId-categoryId`; the
participant dedup map has no entry for `participantId-categoryId`. On
success it writes both dedup maps synchronously, pushes the vote on the
queue (drained later by `processVoteBatch`), flips the submitting
participant's state and confirms to the caller. The handler never compares
`categoryId` against the active session's category. -/
def submitVote (σ : ServerState)
    (participantId deviceId categoryId voteOption : String) (now : Nat) :
    ServerState × SubmitResult × List Emit :=
  match σ.currentVotingSession with
  | none => (σ, .noActiveSession, [errEmit])
  | some s =>
    if s.phase ≠ Phase.voting then (σ, .noActiveSession, [errEmit])
    else if deviceId = "" then (σ, .missingDeviceId, [errEmit])
    else if jsHas σ.deviceVotes (deviceId ++ "-" ++ categoryId) then
      (σ, .duplicateDeviceVote, [errEmit])
    else if jsHas σ.participantVotes (participantId ++ "-" ++ categoryId) then
      (σ, .duplicateParticipantVote, [errEmit])
    else
      let vr : VoteRecord :=
        ⟨categoryId, voteOption, participantId, deviceId, now⟩
      let parts := match jsGet σ.participants participantId with
        | some p => jsSet σ.participants participantId
            { p with hasVoted := true,
                     currentCategoryId := some categoryId,
                     viewState := .voted }
        | none => σ.participants
      ({ σ with
          participantVotes :=
            jsSet σ.participantVotes (participantId ++ "-" ++ categoryId) vr,
          deviceVotes :=
            jsSet σ.deviceVotes (deviceId ++ "-" ++ categoryId) vr,
          voteQueue := σ.voteQueue ++
            [⟨categoryId, voteOption, participantId, now⟩],
          participants := parts },
       .ok,
       [{ target := .caller, event := "vote-confirmed" }])

inductive StartResult
  | ok
  | categoryNotFound
  | alreadyActiveOrCompleted
  | anotherCategoryActive
deriving DecidableEq, Repr

/-- The `start-category` handler. Looks the category up in the database;
rejects when the in-memory category state is `active` or `completed` (a
`revealed` entry, or no entry at all, passes this check); rejects when the
current session is active. On success it creates a fresh session
snapshotting the category's options, marks the category `active`, resets
every participant for the new round and broadcasts `category-started` —
with `results` stripped to the empty object for the voting room, in full to
the admin room. -/
def startCategory (σ : ServerState) (categoryId : String) (now : Nat) :
    ServerState × StartResult × List Emit :=
  match σ.dbCategories.find? (fun c => c.id == categoryId) with
  | none => (σ, .categoryNotFound, [errEmit])
  | some category =>
    if (jsGet σ.categories categoryId).elim false
        (fun st => st.status == .active || st.status == .completed) then
      (σ, .alreadyActiveOrCompleted, [errEmit])
    else if sessionActive σ then
      (σ, .anotherCategoryActive, [errEmit])
    else
      let newSession : Session :=
        { id := σ.nextSessionId,
          categoryId := category.id,
          title := category.title,
          description := category.description,
          active := true,
          startTime := now,
          endTime := none,
          results := [],
          options := category.options.getD
            ["Option A", "Option B", "Option C", "Option D"],
          phase := .voting }
      let σ₁ : ServerState :=
        { σ with
          currentVotingSession := some newSession,
          nextSessionId := σ.nextSessionId + 1,
          categories := jsSet σ.categories categoryId
            { status := .active, voteCount := 0, results := [],
              revealed := false, startedAt := some now,
              completedAt := none, revealedAt := none },
          participants := σ.participants.map (fun p =>
            (p.1, { p.2 with hasVoted := false,
                             currentCategoryId := some categoryId,
                             viewState := .voting })) }
      (σ₁, .ok,
       [{ target := .voting, event := "category-started",
          results := some [] },
        { target := .admin, event := "category-started",
          results := some newSession.results },
        adminStatusEmit σ₁])

inductive StopResult
  | ok
  | noActiveSessionForCategory
deriving DecidableEq, Repr

/-- The `stop-category` handler. The only check is that the current session
references the supplied category — `active` is not consulted, so a category
whose session has already been stopped (or whose winner has been revealed,
while its session is still the current one) can be stopped again. On
success it deactivates the session, copies the working tally into the
category entry and broadcasts `category-stopped` (empty `results` to the
voting room, full to the admin room). -/
def stopCategory (σ : ServerState) (categoryId : String) (now : Nat) :
    ServerState × StopResult × List Emit :=
  match σ.currentVotingSession with
  | none => (σ, .noActiveSessionForCategory, [errEmit])
  | some s =>
    if s.categoryId ≠ categoryId then
      (σ, .noActiveSessionForCategory, [errEmit])
    else
      let s₁ := { s with active := false, phase := Phase.completed,
                         endTime := some now }
      let cats := match jsGet σ.categories categoryId with
        | some st => jsSet σ.categories categoryId
            { st with status := .completed, completedAt := some now,
                      results := s₁.results,
                      voteCount := sumCounts s₁.results }
        | none => σ.categories
      let σ₁ : ServerState :=
        { σ with
          currentVotingSession := some s₁,
          categories := cats,
          participants := σ.participants.map (fun p =>
            if p.2.currentCategoryId == some categoryId then
              (p.1, { p.2 with viewState := .waiting })
            else p) }
      (σ₁, .ok,
       [{ target := .voting, event := "category-stopped",
          results := some [] },
        { target := .admin, event := "category-stopped",
          results := some s₁.results },
        adminStatusEmit σ₁])

inductive RevealResult
  | ok
  | notCompleted
  | alreadyRevealed
deriving DecidableEq, Repr

/-- `Math.max(...Object.values(results))` compared against each count:
represented as the optional maximum of the counts — over an empty tally the
spread gives `-Infinity`, which equals no count, and the winners filter is
vacuous anyway. -/
def maxVotesOf (results : List (String × Nat)) : Option Nat :=
  (results.map (·.2)).max?

/-- `Object.keys(results).filter((option) => results[option] === maxVotes)`. -/
def winnersOf (results : List (String × Nat)) : List String :=
  (results.map (·.1)).filter (fun o => jsGet results o == maxVotesOf results)

/-- `winners.length === 1 ? winners[0] : winners`. -/
def jsWinnerOf (results : List (String × Nat)) : JsWinner :=
  match winnersOf results with
  | [o] => .single o
  | l => .tied l

/-- The `reveal-winner` handler. Rejects with the not-completed error
unless the category's status is exactly `completed` (a successful reveal
sets the status to `revealed`, so an immediate second call lands in this
branch, not the already-revealed one); rejects with the already-revealed
error when `revealed` is already true. On success it computes the winners,
marks the category revealed and broadcasts `winner-revealed` with the full
tally to every connected client (`io.emit`). -/
def revealWinner (σ : ServerState) (categoryId : String) (now : Nat) :
    ServerState × RevealResult × List Emit :=
  match jsGet σ.categories categoryId with
  | none => (σ, .notCompleted, [errEmit])
  | some st =>
    if st.status ≠ CatStatus.completed then (σ, .notCompleted, [errEmit])
    else if st.revealed then (σ, .alreadyRevealed, [errEmit])
    else
      let results := st.results
      let st₁ : CategoryState :=
        { st with revealed := true, revealedAt := some now,
                  status := .revealed }
      let σ₁ : ServerState :=
        { σ with categories := jsSet σ.categories categoryId st₁ }
      (σ₁, .ok,
       [{ target := .all, event := "winner-revealed",
          results := some results,
          winner := some (jsWinnerOf results),
          totalVotes := some (sumCounts results) }])

/-- Commit one queued vote inside a drain batch: insert the row into the
`votes` table, then increment the *current* session's tally under the
vote's option — the source never compares the queued vote's `categoryId`
against the session it is tallying into. (A null session here makes the
source throw before the increment; `processVoteBatch` handles that case.) -/
def commitVote (σ : ServerState) (v : QueuedVote) : ServerState :=
  match σ.currentVotingSession with
  | some s =>
    { σ with
      committedVotes := σ.committedVotes ++
        [⟨v.categoryId, v.voteOption, v.participantId⟩],
      currentVotingSession :=
        some { s with results := jsInc s.results v.voteOption } }
  | none =>
    { σ with committedVotes := σ.committedVotes ++
        [⟨v.categoryId, v.voteOption, v.participantId⟩] }

/-- The tail of `processVoteQueue`'s batch body: after the batch commits,
copy the current session's working tally and its sum into the session's
category entry (no status change). Nothing happens when there is no session
or the session's category has no entry. -/
def tallyCopy (σ : ServerState) : ServerState :=
  match σ.currentVotingSession with
  | some s =>
    match jsGet σ.categories s.categoryId with
    | some st =>
      { σ with
          categories := jsSet σ.categories s.categoryId
            { st with voteCount := sumCounts s.results,
                      results := s.results } }
    | none => σ
  | none => σ

/-- One run of `processVoteQueue`'s batch body. It splices up to 10 votes
off the queue, commits each (database insert, then current-session tally
increment), copies the session tally into the session's category entry
(`tallyCopy`) and emits the tally update to the admin room only. When
`currentVotingSession` is null the source dereferences it after the first
insert and aborts the batch in its catch handler: the first vote reaches
the database, the rest of the spliced batch is dropped, nothing is
emitted. In the source this body runs asynchronously (it suspends at every
awaited insert and reschedules itself with `setTimeout` while votes
remain), so admin commands can execute between a vote's admission and its
drain — hence the separate step here. -/
def processVoteBatch (σ : ServerState) : ServerState × List Emit :=
  match σ.voteQueue with
  | [] => (σ, [])
  | v :: _ =>
    match σ.currentVotingSession with
    | none =>
      ({ σ with
          voteQueue := σ.voteQueue.drop 10,
          committedVotes := σ.committedVotes ++
            [⟨v.categoryId, v.voteOption, v.participantId⟩] }, [])
    | some _ =>
      ((tallyCopy ((σ.voteQueue.take 10).foldl commitVote
          { σ with voteQueue := σ.voteQueue.drop 10 })),
       [{ target := .admin, event := "voting-results",
          results := (tallyCopy ((σ.voteQueue.take 10).foldl commitVote
            { σ with voteQueue := σ.voteQueue.drop 10
              })).currentVotingSession.map (·.results) },
        adminStatusEmit (tallyCopy ((σ.voteQueue.take 10).foldl commitVote
          { σ with voteQueue := σ.voteQueue.drop 10 }))])

/-- The `join-voting` handler. A known participant id only refreshes its
socket binding; a new one is registered in the `waiting` state. Either way
the joiner receives the current session with `results` stripped to the
empty object, its participant info and the participant count. -/
def joinVoting (σ : ServerState) (participantId name : String) :
    ServerState × List Emit :=
  let sessionEmits : List Emit :=
    match σ.currentVotingSession with
    | some _ => [{ target := .caller, event := "voting-session-update",
                   results := some [] }]
    | none => []
  match jsGet σ.participants participantId with
  | some _ =>
    (σ, sessionEmits ++
      [{ target := .caller, event := "participant-info" },
       { target := .caller, event := "participant-count" }])
  | none =>
    let fresh : Participant :=
      { id := participantId, name := name, hasVoted := false,
        currentCategoryId := none, viewState := .waiting }
    ({ σ with participants := jsSet σ.participants participantId fresh },
     sessionEmits ++
      [{ target := .caller, event := "participant-info" },
       { target := .admin, event := "participant-count" },
       { target := .caller, event := "participant-count" }])

/-- The `request-voting-status` handler: the current session with `results`
stripped to the empty object, or a null payload. -/
def requestVotingStatus (σ : ServerState) : List Emit :=
  match σ.currentVotingSession with
  | some _ => [{ target := .caller, event := "voting-status",
                 results := some [] }]
  | none => [{ target := .caller, event := "voting-status" }]

/-- The `request-admin-status` handler (available to any socket): the
current session with `results` stripped to the empty object, and a category
list carrying statuses but no per-category results. -/
def requestAdminStatus (σ : ServerState) : List Emit :=
  [{ target := .caller, event := "admin-status",
     results := σ.currentVotingSession.map (fun _ => []) }]

/-- The `/api/reset` endpoint — its reachable prefix. The handler deletes
the `votes`, `participants` and `categories` tables and nulls the session,
then reads `votingTimer`, a binding whose declaration was removed together
with the timer logic: the read of the undeclared identifier throws a
ReferenceError inside the innermost sqlite callback, so the statements
after it — clearing the `participants`, `categories` and
`participantVotes` maps, re-seeding categories from the CSV and sending
the success response — are dead code and never execute. The in-memory
maps (including both dedup indexes) and the vote queue all survive a
reset, and the category table stays empty. -/
def resetServer (σ : ServerState) : ServerState :=
  { σ with
    committedVotes := [],
    dbCategories := [],
    currentVotingSession := none }

/-! ## Command steps and traces -/

/-- One inbound command at the server's event-loop boundary.
`drain` is a run of the asynchronous vote-queue batch body. -/
inductive Cmd
  | start (categoryId : String) (now : Nat)
  | stop (categoryId : String) (now : Nat)
  | reveal (categoryId : String) (now : Nat)
  | submit (participantId deviceId categoryId voteOption : String) (now : Nat)
  | drain
  | join (participantId name : String)
  | queryVotingStatus
  | queryAdminStatus
  | reset
deriving DecidableEq, Repr

/-- Execute one command: next state plus the emissions it performs. -/
def stepE (σ : ServerState) : Cmd → ServerState × List Emit
  | .start categoryId now =>
    let r := startCategory σ categoryId now; (r.1, r.2.2)
  | .stop categoryId now =>
    let r := stopCategory σ categoryId now; (r.1, r.2.2)
  | .reveal categoryId now =>
    let r := revealWinner σ categoryId now; (r.1, r.2.2)
  | .submit participantId deviceId categoryId voteOption now =>
    let r := submitVote σ participantId deviceId categoryId voteOption now
    (r.1, r.2.2)
  | .drain => processVoteBatch σ
  | .join participantId name => joinVoting σ participantId name
  | .queryVotingStatus => (σ, requestVotingStatus σ)
  | .queryAdminStatus => (σ, requestAdminStatus σ)
  | .reset => (resetServer σ, [])

/-- Execute one command, keeping only the state. -/
def step (σ : ServerState) (c : Cmd) : ServerState := (stepE σ c).1

/-- Execute a command trace. -/
def run (σ : ServerState) (l : List Cmd) : ServerState := l.foldl step σ

/-- The server's boot state: seeded category rows, nothing else. -/
def initState (seed : List CategoryRow) : ServerState :=
  { dbCategories := seed, currentVotingSession := none, participants := [],
    categories := [], participantVotes := [], deviceVotes := [],
    voteQueue := [], committedVotes := [], nextSessionId := 1 }

/-- `currentVotingSession && currentVotingSession.phase === "voting"`: the
guard a vote submission must pass before the dedup checks. -/
def sessionVoting (σ : ServerState) : Bool :=
  match σ.currentVotingSession with
  | some s => s.phase == Phase.voting
  | none => false

/-! ## Submit-call sequences -/

/-- The inputs of one `submit-vote` call. -/
structure SubmitIn where
  participantId : String
  deviceId : String
  categoryId : String
  voteOption : String
  now : Nat
deriving DecidableEq, Repr

/-- One submit call, keeping the state and the result code. -/
def submitStep (σ : ServerState) (i : SubmitIn) : ServerState × SubmitResult :=
  ((submitVote σ i.participantId i.deviceId i.categoryId i.voteOption i.now).1,
   (submitVote σ i.participantId i.deviceId i.categoryId i.voteOption i.now).2.1)

/-- How many calls of a submit sequence succeed with the given
(participant id, category id) pair. -/
def okCountP : ServerState → List SubmitIn → String → String → Nat
  | _, [], _, _ => 0
  | σ, i :: rest, p, c =>
    (if i.participantId = p ∧ i.categoryId = c ∧
        (submitStep σ i).2 = .ok then 1 else 0)
      + okCountP (submitStep σ i).1 rest p c

/-- How many calls of a submit sequence succeed with the given
(device id, category id) pair. -/
def okCountD : ServerState → List SubmitIn → String → String → Nat
  | _, [], _, _ => 0
  | σ, i :: rest, d, c =>
    (if i.deviceId = d ∧ i.categoryId = c ∧
        (submitStep σ i).2 = .ok then 1 else 0)
      + okCountD (submitStep σ i).1 rest d c

/-! ## Category lifecycle relation -/

/-- The category-status transitions a single non-reset command can
perform: stay put, or move along
`not-started → active → completed → revealed`, or leave `revealed`
backward — `stop-category` returns a revealed category to `completed` and
`start-category` re-enters `active` from `revealed`. -/
def forwardStep (a b : CatStatus) : Bool :=
  a == b ||
  (a == .notStarted && b == .active) ||
  (a == .active && b == .completed) ||
  (a == .completed && b == .revealed) ||
  (a == .revealed && b == .completed) ||
  (a == .revealed && b == .active)

/-- Every entry of the in-memory `categories` map was written by a
handler, none of which writes `notStarted`; absence is what encodes
not-started. -/
def wfCategories (σ : ServerState) : Prop :=
  ∀ e ∈ σ.categories, e.2.status ≠ CatStatus.notStarted

instance (σ : ServerState) : Decidable (wfCategories σ) := by
  unfold wfCategories; infer_instance

/-- Whether a command is the full reset. -/
def isResetCmd : Cmd → Bool
  | .reset => true
  | _ => false

/-! ## Client reconciliation layer (`participantStateManager.ts`) -/

/-- One entry of the client's locally persisted voting history. -/
structure ClientVote where
  categoryId : String
  selectedOption : String
  timestamp : Nat
deriving DecidableEq, Repr

/-- The client's `VoterState`. -/
structure VoterState where
  participantId : String
  currentCategoryId : Option String
  hasVoted : Bool
  selectedOption : Option String
  viewState : ViewState
deriving DecidableEq, Repr

/-- The client's persisted state (version and timestamps elided — they do
not feed the transition logic). -/
structure PState where
  participantId : String
  voterState : VoterState
  votingHistory : List ClientVote
deriving DecidableEq, Repr

/-- `hasVotedForCategory`: does the local history contain the category? -/
def hasVotedForCategory (st : PState) (categoryId : String) : Bool :=
  st.votingHistory.any (fun v => v.categoryId == categoryId)

/-- `getVoteForCategory`: the locally recorded option, if any. -/
def getVoteForCategory (st : PState) (categoryId : String) : Option String :=
  (st.votingHistory.find? (fun v => v.categoryId == categoryId)).map
    (·.selectedOption)

/-- `handleVotingSessionStart`: on a session-started event, recompute the
voter state from the local history — an already-voted category resolves to
`voted` with the recorded option restored, otherwise to `voting`. -/
def handleVotingSessionStart (st : PState) (categoryId : String) : PState :=
  let hasAlreadyVoted := hasVotedForCategory st categoryId
  { st with voterState :=
      { st.voterState with
        currentCategoryId := some categoryId,
        hasVoted := hasAlreadyVoted,
        selectedOption :=
          if hasAlreadyVoted then getVoteForCategory st categoryId else none,
        viewState := if hasAlreadyVoted then .voted else .voting } }

/-! ## Concrete example states -/

/-- Two seeded categories. -/
def exSeed : List CategoryRow :=
  [⟨"a", "Category A", "first", some ["X", "Y"]⟩,
   ⟨"b", "Category B", "second", some ["X", "Y"]⟩]

/-- Category `a` taken through a full round and stopped: status
`completed`, empty tally. -/
def exStopped : ServerState :=
  run (initState exSeed) [.start "a" 0, .stop "a" 1]

/-- Category `a` started, stopped and revealed. -/
def exRevealed : ServerState :=
  run (initState exSeed) [.start "a" 0, .stop "a" 1, .reveal "a" 2]

/-- The drift trace: a vote for `a` is admitted while `a` is live but
still queued when `a` is stopped and `b` is started; the late drain then
tallies it into `b`. The first vote and drain put the queue behind an
in-flight drain, which is how the source leaves a vote queued across
commands (its drain loop reschedules itself with a delay). -/
def exDrift : ServerState :=
  run (initState exSeed)
    [.start "a" 0, .submit "p0" "d0" "a" "X" 1, .drain,
     .submit "p1" "d1" "a" "X" 2, .stop "a" 3, .start "b" 4, .drain]

/-- A full round with one committed vote, then the `/api/reset` endpoint
(its reachable prefix — the handler throws before touching the in-memory
maps). -/
def exAfterReset : ServerState :=
  run (initState exSeed)
    [.start "a" 0, .submit "p1" "d1" "a" "X" 1, .drain, .reset]

/-- A live round on category `a` with one vote already admitted. -/
def exOneVote : ServerState :=
  run (initState exSeed) [.start "a" 0, .submit "p1" "d1" "a" "X" 1]

/-- Two submit calls sharing the (participant, category) pair and the
(device, category) pair. -/
def exTwice : List SubmitIn :=
  [⟨"p1", "d1", "a", "X", 1⟩, ⟨"p1", "d1", "a", "Y", 2⟩]

/-- The participant-audience reply to a `request-voting-status` query
while a session exists: the session with `results` stripped. -/
def exEmitVS : Emit :=
  { target := .caller, event := "voting-status", results := some [] }

/-- A client persisted state whose history already contains `catX`. -/
def exClient : PState :=
  { participantId := "part-1",
    voterState :=
      { participantId := "part-1", currentCategoryId := none,
        hasVoted := false, selectedOption := none, viewState := .waiting },
    votingHistory := [⟨"catX", "Alice", 5⟩] }

/-! ## Association-list lemmas -/

theorem comp_set_key_self {α : Type} (k : String) (v : α) :
    ((fun p : String × α => p.1 == k) ∘
      (fun p => if p.1 == k then (k, v) else p)) =
    (fun p : String × α => p.1 == k) := by
  funext p
  by_cases hp : (p.1 == k) = true
  · simp [Function.comp, hp]
  · simp only [Bool.not_eq_true] at hp
    simp [Function.comp, hp]

theorem comp_set_key_ne {α : Type} (k k' : String) (v : α) :
    ((fun p : String × α => p.1 == k') ∘
      (fun p => if p.1 == k then (k, v) else p)) =
    (fun p : String × α => p.1 == k') := by
  funext p
  by_cases hp : (p.1 == k) = true
  · have hpk : p.1 = k := by simpa using hp
    simp [Function.comp, hp, hpk]
  · simp only [Bool.not_eq_true] at hp
    simp [Function.comp, hp]

theorem jsGet_jsSet_self {α : Type} (m : List (String × α)) (k : String)
    (v : α) : jsGet (jsSet m k v) k = some v := by
  unfold jsSet
  by_cases hmem : jsHas m k
  · rw [if_pos hmem]
    unfold jsGet
    rw [List.find?_map, comp_set_key_self]
    unfold jsHas at hmem
    cases hf : m.find? (fun p => p.1 == k) with
    | none => rw [hf] at hmem; simp at hmem
    | some p0 =>
      have hp0 := List.find?_some hf
      simp only [] at hp0
      have hp0e : p0.1 = k := by simpa using hp0
      simp [hp0e]
  · rw [if_neg hmem]
    unfold jsGet
    rw [List.find?_append]
    have hnone : m.find? (fun p => p.1 == k) = none := by
      unfold jsHas at hmem
      cases hf : m.find? (fun p => p.1 == k) with
      | none => rfl
      | some p0 => rw [hf] at hmem; simp at hmem
    rw [hnone]
    simp [List.find?]

theorem jsGet_jsSet_ne {α : Type} (m : List (String × α)) (k k' : String)
    (v : α) (h : k' ≠ k) : jsGet (jsSet m k v) k' = jsGet m k' := by
  unfold jsSet
  by_cases hmem : jsHas m k
  · rw [if_pos hmem]
    unfold jsGet
    rw [List.find?_map, comp_set_key_ne k k' v]
    cases hf : m.find? (fun p => p.1 == k') with
    | none => simp
    | some p0 =>
      have hp0 := List.find?_some hf
      simp only [] at hp0
      have hp0e : p0.1 = k' := by simpa using hp0
      have hp0k : (p0.1 == k) = false := by
        rw [beq_eq_false_iff_ne, hp0e]; exact h
      simp [if_neg (fun e => h (hp0e.symm.trans e))]
  · rw [if_neg hmem]
    unfold jsGet
    rw [List.find?_append]
    have hkk : (k == k') = false := by
      rw [beq_eq_false_iff_ne]; exact fun e => h e.symm
    have hlast : [(k, v)].find? (fun p => p.1 == k') = none := by
      simp [List.find?, hkk]
    rw [hlast]
    cases m.find? (fun p => p.1 == k') <;> rfl

theorem jsGet_jsSet {α : Type} (m : List (String × α)) (k k' : String)
    (v : α) : jsGet (jsSet m k v) k' =
      if k' = k then some v else jsGet m k' := by
  by_cases h : k' = k
  · rw [if_pos h, h, jsGet_jsSet_self]
  · rw [if_neg h, jsGet_jsSet_ne m k k' v h]

theorem jsHas_eq_isSome_jsGet {α : Type} (m : List (String × α))
    (k : String) : jsHas m k = (jsGet m k).isSome := by
  unfold jsHas jsGet
  cases m.find? (fun p => p.1 == k) <;> rfl

theorem jsHas_jsSet_self {α : Type} (m : List (String × α)) (k : String)
    (v : α) : jsHas (jsSet m k v) k = true := by
  rw [jsHas_eq_isSome_jsGet, jsGet_jsSet_self]; rfl

theorem jsHas_jsSet_ne {α : Type} (m : List (String × α)) (k k' : String)
    (v : α) (h : k' ≠ k) : jsHas (jsSet m k v) k' = jsHas m k' := by
  rw [jsHas_eq_isSome_jsGet, jsHas_eq_isSome_jsGet, jsGet_jsSet_ne m k k' v h]

theorem jsHas_jsSet_of_jsHas {α : Type} (m : List (String × α))
    (k k' : String) (v : α) (h : jsHas m k' = true) :
    jsHas (jsSet m k v) k' = true := by
  by_cases he : k' = k
  · rw [he]; exact jsHas_jsSet_self m k v
  · rw [jsHas_jsSet_ne m k k' v he]; exact h

/-! ## Vote-admission lemmas -/

theorem submitVote_cases (σ : ServerState) (p d c o : String) (t : Nat) :
    (sessionVoting σ = false →
      submitVote σ p d c o t = (σ, .noActiveSession, [errEmit])) ∧
    (sessionVoting σ = true → d = "" →
      submitVote σ p d c o t = (σ, .missingDeviceId, [errEmit])) ∧
    (sessionVoting σ = true → d ≠ "" →
      jsHas σ.deviceVotes (d ++ "-" ++ c) = true →
      submitVote σ p d c o t = (σ, .duplicateDeviceVote, [errEmit])) ∧
    (sessionVoting σ = true → d ≠ "" →
      jsHas σ.deviceVotes (d ++ "-" ++ c) = false →
      jsHas σ.participantVotes (p ++ "-" ++ c) = true →
      submitVote σ p d c o t = (σ, .duplicateParticipantVote, [errEmit])) := by
  unfold submitVote sessionVoting
  cases hcs : σ.currentVotingSession with
  | none => simp
  | some s =>
    by_cases hph : s.phase = Phase.voting
    · cases hdv : jsHas σ.deviceVotes (d ++ "-" ++ c) with
      | true => simp [hph, hdv]
      | false =>
        cases hpv : jsHas σ.participantVotes (p ++ "-" ++ c) with
        | true => simp [hph, hdv, hpv]
        | false => simp [hph, hdv, hpv]
    · have hb : (s.phase == Phase.voting) = false := by
        rw [beq_eq_false_iff_ne]; exact hph
      simp [hph, hb]

theorem submitVote_ok_effects (σ : ServerState) (p d c o : String) (t : Nat)
    (hs : sessionVoting σ = true) (hd : d ≠ "")
    (hdv : jsHas σ.deviceVotes (d ++ "-" ++ c) = false)
    (hpv : jsHas σ.participantVotes (p ++ "-" ++ c) = false) :
    (submitVote σ p d c o t).2.1 = .ok ∧
    (submitVote σ p d c o t).1.participantVotes =
      jsSet σ.participantVotes (p ++ "-" ++ c) ⟨c, o, p, d, t⟩ ∧
    (submitVote σ p d c o t).1.deviceVotes =
      jsSet σ.deviceVotes (d ++ "-" ++ c) ⟨c, o, p, d, t⟩ ∧
    (submitVote σ p d c o t).1.voteQueue =
      σ.voteQueue ++ [⟨c, o, p, t⟩] := by
  unfold sessionVoting at hs
  unfold submitVote
  cases hcs : σ.currentVotingSession with
  | none => rw [hcs] at hs; simp at hs
  | some s =>
    rw [hcs] at hs
    have hph : s.phase = Phase.voting := by simpa using hs
    simp [hph, hd, hdv, hpv]

theorem submitVote_not_ok_cases (σ : ServerState) (p d c o : String)
    (t : Nat) :
    ((submitVote σ p d c o t).2.1 ≠ .ok →
      (submitVote σ p d c o t).1 = σ) ∧
    (jsHas σ.participantVotes (p ++ "-" ++ c) = true →
      (submitVote σ p d c o t).2.1 ≠ .ok) ∧
    (jsHas σ.deviceVotes (d ++ "-" ++ c) = true →
      (submitVote σ p d c o t).2.1 ≠ .ok) := by
  unfold submitVote
  cases hcs : σ.currentVotingSession with
  | none => simp
  | some s =>
    by_cases hph : s.phase = Phase.voting
    · by_cases hd : d = ""
      · simp [hph, hd]
      · cases hdv : jsHas σ.deviceVotes (d ++ "-" ++ c) with
        | true => simp [hph, hd, hdv]
        | false =>
          cases hpv : jsHas σ.participantVotes (p ++ "-" ++ c) with
          | true => simp [hph, hd, hdv, hpv]
          | false => simp [hph, hd, hdv, hpv]
    · simp [hph]

theorem submitVote_mono (σ : ServerState) (p d c o : String) (t : Nat)
    (k : String) :
    (jsHas σ.participantVotes k = true →
      jsHas (submitVote σ p d c o t).1.participantVotes k = true) ∧
    (jsHas σ.deviceVotes k = true →
      jsHas (submitVote σ p d c o t).1.deviceVotes k = true) := by
  unfold submitVote
  cases hcs : σ.currentVotingSession with
  | none => simp
  | some s =>
    by_cases hph : s.phase = Phase.voting
    · by_cases hd : d = ""
      · simp [hph, hd]
      · cases hdv : jsHas σ.deviceVotes (d ++ "-" ++ c) with
        | true => simp [hph, hd, hdv]
        | false =>
          cases hpv : jsHas σ.participantVotes (p ++ "-" ++ c) with
          | true => simp [hph, hd, hdv, hpv]
          | false =>
            simp only [hph, hd, hdv, hpv]
            constructor
            · intro h
              simp [hph, hd, hdv, hpv]
              exact jsHas_jsSet_of_jsHas _ _ _ _ h
            · intro h
              simp [hph, hd, hdv, hpv]
              exact jsHas_jsSet_of_jsHas _ _ _ _ h
    · simp [hph]

theorem submitVote_ok_writes (σ : ServerState) (p d c o : String) (t : Nat)
    (h : (submitVote σ p d c o t).2.1 = .ok) :
    jsHas (submitVote σ p d c o t).1.participantVotes (p ++ "-" ++ c) = true ∧
    jsHas (submitVote σ p d c o t).1.deviceVotes (d ++ "-" ++ c) = true := by
  have hs : sessionVoting σ = true := by
    cases hb : sessionVoting σ with
    | true => rfl
    | false =>
      rw [(submitVote_cases σ p d c o t).1 hb] at h
      simp at h
  have hd : d ≠ "" := by
    intro hde
    rw [(submitVote_cases σ p d c o t).2.1 hs hde] at h
    simp at h
  have hdv : jsHas σ.deviceVotes (d ++ "-" ++ c) = false := by
    cases hb : jsHas σ.deviceVotes (d ++ "-" ++ c) with
    | false => rfl
    | true =>
      rw [(submitVote_cases σ p d c o t).2.2.1 hs hd hb] at h
      simp at h
  have hpv : jsHas σ.participantVotes (p ++ "-" ++ c) = false := by
    cases hb : jsHas σ.participantVotes (p ++ "-" ++ c) with
    | false => rfl
    | true =>
      rw [(submitVote_cases σ p d c o t).2.2.2 hs hd hdv hb] at h
      simp at h
  have he := submitVote_ok_effects σ p d c o t hs hd hdv hpv
  rw [he.2.1, he.2.2.1]
  exact ⟨jsHas_jsSet_self _ _ _, jsHas_jsSet_self _ _ _⟩

theorem okCountP_eq_zero_of_mem (σ : ServerState) (l : List SubmitIn)
    (p c : String) (h : jsHas σ.participantVotes (p ++ "-" ++ c) = true) :
    okCountP σ l p c = 0 := by
  induction l generalizing σ with
  | nil => rfl
  | cons i rest ih =>
    unfold okCountP
    rw [if_neg, ih]
    · exact (submitVote_mono σ i.participantId i.deviceId i.categoryId
        i.voteOption i.now _).1 h
    · rintro ⟨hp, hc, hok⟩
      exact (submitVote_not_ok_cases σ i.participantId i.deviceId
        i.categoryId i.voteOption i.now).2.1
        (by rw [hp, hc]; exact h) hok

theorem okCountD_eq_zero_of_mem (σ : ServerState) (l : List SubmitIn)
    (d c : String) (h : jsHas σ.deviceVotes (d ++ "-" ++ c) = true) :
    okCountD σ l d c = 0 := by
  induction l generalizing σ with
  | nil => rfl
  | cons i rest ih =>
    unfold okCountD
    rw [if_neg, ih]
    · exact (submitVote_mono σ i.participantId i.deviceId i.categoryId
        i.voteOption i.now _).2 h
    · rintro ⟨hd, hc, hok⟩
      exact (submitVote_not_ok_cases σ i.participantId i.deviceId
        i.categoryId i.voteOption i.now).2.2
        (by rw [hd, hc]; exact h) hok

theorem okCountP_le_one (σ : ServerState) (l : List SubmitIn)
    (p c : String) : okCountP σ l p c ≤ 1 := by
  induction l generalizing σ with
  | nil => exact Nat.zero_le 1
  | cons i rest ih =>
    unfold okCountP
    by_cases hc : i.participantId = p ∧ i.categoryId = c ∧
        (submitStep σ i).2 = .ok
    · rw [if_pos hc]
      have hw := (submitVote_ok_writes σ i.participantId i.deviceId
        i.categoryId i.voteOption i.now hc.2.2).1
      have hw2 : jsHas (submitStep σ i).1.participantVotes
          (p ++ "-" ++ c) = true := by
        rw [← hc.1, ← hc.2.1]
        exact hw
      rw [okCountP_eq_zero_of_mem _ _ _ _ hw2]
    · rw [if_neg hc, Nat.zero_add]
      exact ih _

theorem okCountD_le_one (σ : ServerState) (l : List SubmitIn)
    (d c : String) : okCountD σ l d c ≤ 1 := by
  induction l generalizing σ with
  | nil => exact Nat.zero_le 1
  | cons i rest ih =>
    unfold okCountD
    by_cases hc : i.deviceId = d ∧ i.categoryId = c ∧
        (submitStep σ i).2 = .ok
    · rw [if_pos hc]
      have hw := (submitVote_ok_writes σ i.participantId i.deviceId
        i.categoryId i.voteOption i.now hc.2.2).2
      have hw2 : jsHas (submitStep σ i).1.deviceVotes
          (d ++ "-" ++ c) = true := by
        rw [← hc.1, ← hc.2.1]
        exact hw
      rw [okCountD_eq_zero_of_mem _ _ _ _ hw2]
    · rw [if_neg hc, Nat.zero_add]
      exact ih _

theorem activeSessionCount_le_one (σ : ServerState) :
    activeSessionCount σ ≤ 1 := by
  unfold activeSessionCount
  cases σ.currentVotingSession with
  | none => exact Nat.zero_le 1
  | some s =>
    show (if s.active = true then 1 else 0) ≤ 1
    by_cases h : s.active = true
    · rw [if_pos h]
    · rw [if_neg h]; exact Nat.zero_le 1

/-! ## Claim theorems -/

/-- Claim C1: across any sequence of `submit-vote` calls, at most one call
succeeds per (participant id, category id) pair and at most one per
(device id, category id) pair; a call finding its device pair in the dedup
index is rejected as a device duplicate, a call finding its participant
pair (with a fresh device) as a participant duplicate; and a successful
call has written both dedup indexes synchronously by the time it returns. -/
theorem submit_at_most_one_success_per_pair
    (σ : ServerState) (l : List SubmitIn) (p d c : String) :
    okCountP σ l p c ≤ 1 ∧ okCountD σ l d c ≤ 1 ∧
    (∀ (σa : ServerState) (pa oa : String) (ta : Nat),
      sessionVoting σa = true → d ≠ "" →
      jsHas σa.deviceVotes (d ++ "-" ++ c) = true →
      (submitVote σa pa d c oa ta).2.1 = .duplicateDeviceVote) ∧
    (∀ (σa : ServerState) (da oa : String) (ta : Nat),
      sessionVoting σa = true → da ≠ "" →
      jsHas σa.deviceVotes (da ++ "-" ++ c) = false →
      jsHas σa.participantVotes (p ++ "-" ++ c) = true →
      (submitVote σa p da c oa ta).2.1 = .duplicateParticipantVote) ∧
    (∀ (σa : ServerState) (da oa : String) (ta : Nat),
      (submitVote σa p da c oa ta).2.1 = .ok →
      jsHas (submitVote σa p da c oa ta).1.participantVotes
        (p ++ "-" ++ c) = true ∧
      jsHas (submitVote σa p da c oa ta).1.deviceVotes
        (da ++ "-" ++ c) = true) := by
  refine ⟨okCountP_le_one σ l p c, okCountD_le_one σ l d c, ?_, ?_, ?_⟩
  · intro σa pa oa ta hs hd hb
    rw [(submitVote_cases σa pa d c oa ta).2.2.1 hs hd hb]
  · intro σa da oa ta hs hd hnb hb
    rw [(submitVote_cases σa p da c oa ta).2.2.2 hs hd hnb hb]
  · intro σa da oa ta hok
    exact submitVote_ok_writes σa p da c oa ta hok

theorem submit_at_most_one_success_per_pair_witness :
    okCountP (run (initState exSeed) [Cmd.start "a" 0]) exTwice "p1" "a" ≤ 1 ∧
    okCountD (run (initState exSeed) [Cmd.start "a" 0]) exTwice "d1" "a" ≤ 1 ∧
    (submitVote exOneVote "p9" "d1" "a" "Y" 7).2.1 = .duplicateDeviceVote ∧
    (submitVote exOneVote "p1" "d9" "a" "Y" 7).2.1 =
      .duplicateParticipantVote ∧
    jsHas (submitVote exOneVote "p2" "d2" "a" "Y" 7).1.participantVotes
      ("p2" ++ "-" ++ "a") = true := by
  have h1 := submit_at_most_one_success_per_pair
    (run (initState exSeed) [Cmd.start "a" 0]) exTwice "p1" "d1" "a"
  have h2 := submit_at_most_one_success_per_pair exOneVote [] "p1" "d9" "a"
  have h3 := submit_at_most_one_success_per_pair exOneVote [] "p2" "d2" "a"
  refine ⟨h1.1, h1.2.1, ?_, ?_, ?_⟩
  · exact h1.2.2.1 exOneVote "p9" "Y" 7 (by decide) (by decide) (by decide)
  · exact h2.2.2.2.1 exOneVote "d9" "Y" 7 (by decide) (by decide) (by decide)
      (by decide)
  · exact (h3.2.2.2.2 exOneVote "d2" "Y" 7 (by decide)).1

/-- Claim C8: when the client processes a session-started event for a
category already present in its local voting history, its view state
resolves to `voted` — never `voting` — with the previously selected option
restored, for every local history containing that category. -/
theorem session_start_resolves_voted (st : PState) (cid : String)
    (h : hasVotedForCategory st cid = true) :
    (handleVotingSessionStart st cid).voterState.viewState = .voted ∧
    (handleVotingSessionStart st cid).voterState.hasVoted = true ∧
    (handleVotingSessionStart st cid).voterState.selectedOption =
      getVoteForCategory st cid ∧
    (handleVotingSessionStart st cid).voterState.viewState ≠ .voting := by
  unfold handleVotingSessionStart
  simp [h]

theorem session_start_resolves_voted_witness :
    hasVotedForCategory exClient "catX" = true ∧
    (handleVotingSessionStart exClient "catX").voterState.viewState =
      .voted ∧
    (handleVotingSessionStart exClient "catX").voterState.selectedOption =
      some "Alice" := by
  have h := session_start_resolves_voted exClient "catX" (by decide)
  exact ⟨by decide, h.1, by rw [h.2.2.1]; decide⟩

/-- Claim C7: the winner computed at reveal is a pure function of the
results mapping: exactly the options whose count equals the maximum count
present; a unique maximizer is reported as that single option, a tie as the
full tied set; `{A: 3, B: 3, C: 1}` yields the set `{A, B}`. -/
theorem winner_is_argmax_set (results : List (String × Nat)) (o : String) :
    (o ∈ winnersOf results ↔
      o ∈ results.map (·.1) ∧ jsGet results o = maxVotesOf results) ∧
    (winnersOf results = [o] → jsWinnerOf results = .single o) ∧
    ((winnersOf results).length ≠ 1 →
      jsWinnerOf results = .tied (winnersOf results)) ∧
    (winnersOf [("A", 3), ("B", 3), ("C", 1)]).toFinset =
      ({"A", "B"} : Finset String) ∧
    jsWinnerOf [("A", 3), ("B", 3), ("C", 1)] = .tied ["A", "B"] := by
  refine ⟨?_, ?_, ?_, by decide, by decide⟩
  · unfold winnersOf
    rw [List.mem_filter]
    simp [beq_iff_eq]
  · intro h
    unfold jsWinnerOf
    rw [h]
  · intro h
    cases hw : winnersOf results with
    | nil => unfold jsWinnerOf; rw [hw]
    | cons a l =>
      cases l with
      | nil => rw [hw] at h; simp at h
      | cons b l2 => unfold jsWinnerOf; rw [hw]

theorem winner_is_argmax_set_witness :
    jsWinnerOf [("A", 3), ("B", 3), ("C", 1)] = .tied ["A", "B"] ∧
    jsWinnerOf [("A", 5), ("B", 1)] = .single "A" := by
  refine ⟨(winner_is_argmax_set [] "A").2.2.2.2, ?_⟩
  exact (winner_is_argmax_set [("A", 5), ("B", 1)] "A").2.1 (by decide)

/-- Claim C10: revealing a completed, unrevealed category whose results
mapping is empty does not fail: it succeeds, marks the category revealed,
and broadcasts a winner-revealed event to everyone whose winner is the
empty tied set and whose total vote count is 0. -/
theorem reveal_succeeds_on_empty_results (σ : ServerState) (cid : String)
    (now : Nat) (st : CategoryState)
    (h : jsGet σ.categories cid = some st) (hs : st.status = .completed)
    (hr : st.revealed = false) (he : st.results = []) :
    (revealWinner σ cid now).2.1 = .ok ∧
    statusOf (revealWinner σ cid now).1 cid = .revealed ∧
    (revealWinner σ cid now).2.2 =
      [{ target := .all, event := "winner-revealed", results := some [],
         winner := some (.tied []), totalVotes := some 0 }] := by
  unfold revealWinner
  simp only [h]
  rw [if_neg (by simp [hs]), if_neg (by simp [hr])]
  refine ⟨rfl, ?_, ?_⟩
  · simp [statusOf, jsGet_jsSet_self]
  · simp only [he]
    rfl

theorem reveal_succeeds_on_empty_results_witness :
    jsGet exStopped.categories "a" = some
      { status := .completed, voteCount := 0, results := [],
        revealed := false, startedAt := some 0, completedAt := some 1,
        revealedAt := none } ∧
    (revealWinner exStopped "a" 2).2.1 = .ok ∧
    statusOf (revealWinner exStopped "a" 2).1 "a" = .revealed := by
  have h := reveal_succeeds_on_empty_results exStopped "a" 2
    { status := .completed, voteCount := 0, results := [],
      revealed := false, startedAt := some 0, completedAt := some 1,
      revealedAt := none } (by decide) (by decide) (by decide) (by decide)
  exact ⟨by decide, h.1, h.2.1⟩

/-! ## Reveal and start lemmas -/

theorem revealWinner_notCompleted (σ : ServerState) (cid : String)
    (now : Nat) (h : statusOf σ cid ≠ .completed) :
    (revealWinner σ cid now).2.1 = .notCompleted ∧
    (revealWinner σ cid now).1 = σ := by
  unfold statusOf at h
  unfold revealWinner
  cases hg : jsGet σ.categories cid with
  | none => simp [hg]
  | some st =>
    rw [hg] at h
    simp only [hg]
    rw [if_pos h]
    exact ⟨rfl, rfl⟩

theorem revealWinner_alreadyRevealed (σ : ServerState) (cid : String)
    (now : Nat) (st : CategoryState) (hg : jsGet σ.categories cid = some st)
    (hs : st.status = .completed) (hr : st.revealed = true) :
    (revealWinner σ cid now).2.1 = .alreadyRevealed ∧
    (revealWinner σ cid now).1 = σ := by
  unfold revealWinner
  simp only [hg]
  rw [if_neg (by simp [hs]), if_pos hr]
  exact ⟨rfl, rfl⟩

theorem revealWinner_ok_effects (σ : ServerState) (cid : String)
    (now : Nat) (st : CategoryState) (hg : jsGet σ.categories cid = some st)
    (hs : st.status = .completed) (hr : st.revealed = false) :
    (revealWinner σ cid now).2.1 = .ok ∧
    (revealWinner σ cid now).1.categories = jsSet σ.categories cid
      { st with revealed := true, revealedAt := some now,
                status := .revealed } ∧
    (revealWinner σ cid now).2.2 =
      [{ target := .all, event := "winner-revealed",
         results := some st.results,
         winner := some (jsWinnerOf st.results),
         totalVotes := some (sumCounts st.results) }] := by
  unfold revealWinner
  simp only [hg]
  rw [if_neg (by simp [hs]), if_neg (by simp [hr])]
  exact ⟨rfl, rfl, rfl⟩

theorem startCategory_notFound (σ : ServerState) (cid : String) (now : Nat)
    (hf : σ.dbCategories.find? (fun cr => cr.id == cid) = none) :
    startCategory σ cid now = (σ, .categoryNotFound, [errEmit]) := by
  unfold startCategory
  simp only [hf]

theorem startCategory_activeOrCompleted (σ : ServerState) (cid : String)
    (now : Nat) (category : CategoryRow)
    (hf : σ.dbCategories.find? (fun cr => cr.id == cid) = some category)
    (helim : (jsGet σ.categories cid).elim false
      (fun st => st.status == CatStatus.active ||
        st.status == CatStatus.completed) = true) :
    startCategory σ cid now = (σ, .alreadyActiveOrCompleted, [errEmit]) := by
  unfold startCategory
  simp only [hf]
  rw [if_pos helim]

theorem startCategory_sessionBusy (σ : ServerState) (cid : String)
    (now : Nat) (category : CategoryRow)
    (hf : σ.dbCategories.find? (fun cr => cr.id == cid) = some category)
    (helim : (jsGet σ.categories cid).elim false
      (fun st => st.status == CatStatus.active ||
        st.status == CatStatus.completed) = false)
    (hs : sessionActive σ = true) :
    startCategory σ cid now = (σ, .anotherCategoryActive, [errEmit]) := by
  unfold startCategory
  simp only [hf]
  rw [if_neg (by simp [helim]), if_pos hs]

theorem startCategory_ok_effects (σ : ServerState) (cid : String)
    (now : Nat) (category : CategoryRow)
    (hf : σ.dbCategories.find? (fun cr => cr.id == cid) = some category)
    (helim : (jsGet σ.categories cid).elim false
      (fun st => st.status == CatStatus.active ||
        st.status == CatStatus.completed) = false)
    (hs : sessionActive σ = false) :
    (startCategory σ cid now).2.1 = .ok ∧
    (startCategory σ cid now).1.categories = jsSet σ.categories cid
      { status := .active, voteCount := 0, results := [],
        revealed := false, startedAt := some now, completedAt := none,
        revealedAt := none } ∧
    (startCategory σ cid now).1.currentVotingSession = some
      { id := σ.nextSessionId, categoryId := category.id,
        title := category.title, description := category.description,
        active := true, startTime := now, endTime := none, results := [],
        options := category.options.getD
          ["Option A", "Option B", "Option C", "Option D"],
        phase := .voting } := by
  unfold startCategory
  simp only [hf]
  rw [if_neg (by simp [helim]), if_neg (by simp [hs])]
  exact ⟨rfl, rfl, rfl⟩

/-- Claim C5 counterexample: on the concrete round start-stop-reveal of
category `a`, the first reveal succeeds, but the immediate second reveal is
rejected with the not-completed error — not the already-revealed error the
claim promises — because the success moved the status to `revealed`. -/
theorem second_reveal_not_alreadyRevealed :
    (revealWinner exStopped "a" 2).2.1 = .ok ∧
    statusOf exRevealed "a" = .revealed ∧
    (revealWinner exRevealed "a" 9).2.1 = .notCompleted ∧
    (revealWinner exRevealed "a" 9).2.1 ≠ .alreadyRevealed := by decide

/-- Claim C5 (amended): a reveal on a category whose status is exactly
`completed` with `revealed = false` succeeds — it sets `revealed`, moves the
status to `revealed` and broadcasts the full result to every client — and
every immediately subsequent reveal of that category fails, but with the
not-completed error, since the success moved the status out of `completed`;
the already-revealed error is returned only in the (stop-after-reveal)
states where the status is `completed` while `revealed` is already true; a
reveal on a non-completed category fails with the not-completed error. All
failures leave the state unchanged. -/
theorem reveal_winner_amended (σ : ServerState) (cid : String)
    (now now₂ : Nat) :
    (∀ st, jsGet σ.categories cid = some st → st.status = .completed →
      st.revealed = false →
      (revealWinner σ cid now).2.1 = .ok ∧
      statusOf (revealWinner σ cid now).1 cid = .revealed ∧
      (revealWinner σ cid now).2.2 =
        [{ target := .all, event := "winner-revealed",
           results := some st.results,
           winner := some (jsWinnerOf st.results),
           totalVotes := some (sumCounts st.results) }] ∧
      (revealWinner (revealWinner σ cid now).1 cid now₂).2.1 =
        .notCompleted ∧
      (revealWinner (revealWinner σ cid now).1 cid now₂).2.1 ≠
        .alreadyRevealed) ∧
    (statusOf σ cid ≠ .completed →
      (revealWinner σ cid now).2.1 = .notCompleted ∧
      (revealWinner σ cid now).1 = σ) ∧
    (∀ st, jsGet σ.categories cid = some st → st.status = .completed →
      st.revealed = true →
      (revealWinner σ cid now).2.1 = .alreadyRevealed ∧
      (revealWinner σ cid now).1 = σ) := by
  refine ⟨?_, revealWinner_notCompleted σ cid now, ?_⟩
  · intro st hg hs hr
    have he := revealWinner_ok_effects σ cid now st hg hs hr
    have hst : statusOf (revealWinner σ cid now).1 cid = .revealed := by
      unfold statusOf
      rw [he.2.1, jsGet_jsSet_self]
    have hsecond := revealWinner_notCompleted (revealWinner σ cid now).1
      cid now₂ (by rw [hst]; decide)
    refine ⟨he.1, hst, he.2.2, hsecond.1, by rw [hsecond.1]; decide⟩
  · intro st hg hs hr
    exact revealWinner_alreadyRevealed σ cid now st hg hs hr

theorem reveal_winner_amended_witness :
    (revealWinner exStopped "a" 2).2.1 = .ok ∧
    statusOf (revealWinner exStopped "a" 2).1 "a" = .revealed ∧
    (revealWinner exRevealed "a" 9).2.1 = .notCompleted := by
  have h := reveal_winner_amended exStopped "a" 2 9
  have h2 := reveal_winner_amended exRevealed "a" 9 10
  have hp := h.1
    { status := .completed, voteCount := 0, results := [],
      revealed := false, startedAt := some 0, completedAt := some 1,
      revealedAt := none } (by decide) (by decide) (by decide)
  exact ⟨hp.1, hp.2.1, (h2.2.1 (by decide)).1⟩

/-- Claim C2 counterexample: after start-stop-reveal of category `a`, no
session is active and the category's status is `revealed` — not
`not-started` — yet `start-category` succeeds and mutates the state,
contradicting the claim that it must fail whenever the target category is
not in `not-started`. -/
theorem start_succeeds_on_revealed_category :
    statusOf exRevealed "a" = .revealed ∧
    sessionActive exRevealed = false ∧
    (startCategory exRevealed "a" 3).2.1 = .ok ∧
    (startCategory exRevealed "a" 3).1 ≠ exRevealed := by decide

/-- Claim C2 (amended): at most one session is ever active (the server
keeps a single nullable session value); `start-category` fails, mutating
nothing, whenever a session is active or the target category's status is
`active` or `completed` — a `revealed` (or unknown) category is not
protected by the not-started rule — and on success it creates the new
active session for the target category and sets the category's status to
`active`. -/
theorem start_category_guards (σ : ServerState) (cid : String) (now : Nat) :
    activeSessionCount σ ≤ 1 ∧
    activeSessionCount (startCategory σ cid now).1 ≤ 1 ∧
    (sessionActive σ = true →
      (startCategory σ cid now).2.1 ≠ .ok ∧
      (startCategory σ cid now).1 = σ) ∧
    (∀ st, jsGet σ.categories cid = some st →
      (st.status = .active ∨ st.status = .completed) →
      (startCategory σ cid now).2.1 ≠ .ok ∧
      (startCategory σ cid now).1 = σ) ∧
    ((startCategory σ cid now).2.1 = .ok →
      statusOf (startCategory σ cid now).1 cid = .active ∧
      sessionActive (startCategory σ cid now).1 = true ∧
      (∃ s, (startCategory σ cid now).1.currentVotingSession = some s ∧
        s.categoryId = cid ∧ s.active = true)) := by
  refine ⟨activeSessionCount_le_one σ, activeSessionCount_le_one _,
    ?_, ?_, ?_⟩
  · intro hs
    cases hf : σ.dbCategories.find? (fun cr => cr.id == cid) with
    | none => rw [startCategory_notFound σ cid now hf]; exact ⟨by simp, rfl⟩
    | some category =>
      cases helim : (jsGet σ.categories cid).elim false
          (fun st => st.status == CatStatus.active ||
            st.status == CatStatus.completed) with
      | true =>
        rw [startCategory_activeOrCompleted σ cid now category hf helim]
        exact ⟨by simp, rfl⟩
      | false =>
        rw [startCategory_sessionBusy σ cid now category hf helim hs]
        exact ⟨by simp, rfl⟩
  · intro st hg hstat
    have helim : (jsGet σ.categories cid).elim false
        (fun st => st.status == CatStatus.active ||
          st.status == CatStatus.completed) = true := by
      rw [hg]
      rcases hstat with h1 | h1 <;> simp [h1]
    cases hf : σ.dbCategories.find? (fun cr => cr.id == cid) with
    | none => rw [startCategory_notFound σ cid now hf]; exact ⟨by simp, rfl⟩
    | some category =>
      rw [startCategory_activeOrCompleted σ cid now category hf helim]
      exact ⟨by simp, rfl⟩
  · intro hok
    cases hf : σ.dbCategories.find? (fun cr => cr.id == cid) with
    | none =>
      rw [startCategory_notFound σ cid now hf] at hok
      simp at hok
    | some category =>
      cases helim : (jsGet σ.categories cid).elim false
          (fun st => st.status == CatStatus.active ||
            st.status == CatStatus.completed) with
      | true =>
        rw [startCategory_activeOrCompleted σ cid now category hf helim]
          at hok
        simp at hok
      | false =>
        cases hs : sessionActive σ with
        | true =>
          rw [startCategory_sessionBusy σ cid now category hf helim hs]
            at hok
          simp at hok
        | false =>
          have he := startCategory_ok_effects σ cid now category hf helim hs
          have hcid : category.id = cid := by
            have := List.find?_some hf
            simpa using this
          refine ⟨?_, ?_, ?_⟩
          · unfold statusOf
            rw [he.2.1, jsGet_jsSet_self]
          · unfold sessionActive
            rw [he.2.2]
          · refine ⟨_, he.2.2, hcid, rfl⟩

theorem start_category_guards_witness :
    (startCategory exOneVote "b" 9).2.1 ≠ .ok ∧
    (startCategory exOneVote "b" 9).1 = exOneVote ∧
    (startCategory (run (initState exSeed) []) "a" 0).2.1 = .ok ∧
    statusOf (startCategory (run (initState exSeed) []) "a" 0).1 "a" =
      .active := by
  have h1 := start_category_guards exOneVote "b" 9
  have h2 := start_category_guards (run (initState exSeed) []) "a" 0
  have hb1 := h1.2.2.1 (by decide)
  have hb2 := h2.2.2.2.2 (by decide)
  exact ⟨hb1.1, hb1.2, by decide, hb2.1⟩

/-- Claim C3 (refuted on the drift trace): a vote admitted for category
`a` but drained after category `b`'s session starts is committed to the
database under `a` yet tallied into `b` — afterwards `b`'s results mapping
records one vote although zero committed vote records exist for `b`, and
`a`'s results mapping records one vote although two committed vote records
exist for `a`. The drain increments whatever session is current when it
runs, ignoring the queued vote's category id. -/
theorem drain_tallies_into_wrong_category :
    jsGet exDrift.categories "b" = some
      { status := .active, voteCount := 1, results := [("X", 1)],
        revealed := false, startedAt := some 4, completedAt := none,
        revealedAt := none } ∧
    exDrift.committedVotes.filter (fun v => v.categoryId == "b") = [] ∧
    exDrift.committedVotes.filter (fun v => v.categoryId == "a") =
      [⟨"a", "X", "p0"⟩, ⟨"a", "X", "p1"⟩] ∧
    jsGet exDrift.categories "a" = some
      { status := .completed, voteCount := 1, results := [("X", 1)],
        revealed := false, startedAt := some 0, completedAt := some 3,
        revealedAt := none } := by decide

/-- Claim C9 (refuted on the reset trace): the reset handler deletes the
vote and category tables and nulls the session, then throws on the read of
the undeclared `votingTimer` binding, so none of the claimed in-memory
clearing happens. After the reset, committed votes and the category table
are empty and no session exists — but category `a`'s in-memory status is
still `active` (not `not-started`), both dedup indexes still hold the old
vote, no categories were re-seeded (starting `a` fails with
category-not-found on the emptied table), and a fresh vote — from the
previously-used identity or any other — is not admissible at all. -/
theorem reset_throws_before_clearing_memory :
    exAfterReset.committedVotes = [] ∧
    exAfterReset.dbCategories = [] ∧
    exAfterReset.currentVotingSession = none ∧
    statusOf exAfterReset "a" = .active ∧
    jsHas exAfterReset.participantVotes ("p1" ++ "-" ++ "a") = true ∧
    jsHas exAfterReset.deviceVotes ("d1" ++ "-" ++ "a") = true ∧
    (startCategory exAfterReset "a" 2).2.1 = .categoryNotFound ∧
    (submitVote exAfterReset "p2" "d1" "a" "X" 3).2.1 =
      .noActiveSession := by decide

/-! ## Categories-shape lemmas for the lifecycle relation -/

theorem statusOf_eq_of_categories (σ₁ σ₂ : ServerState) (cid : String)
    (h : σ₁.categories = σ₂.categories) :
    statusOf σ₁ cid = statusOf σ₂ cid := by
  unfold statusOf
  rw [h]

theorem forwardStep_refl (a : CatStatus) : forwardStep a a = true := by
  cases a <;> rfl

theorem jsGet_mem {α : Type} (m : List (String × α)) (k : String) (v : α)
    (h : jsGet m k = some v) : ∃ p, p ∈ m ∧ p.2 = v := by
  unfold jsGet at h
  cases hf : m.find? (fun p => p.1 == k) with
  | none => rw [hf] at h; simp at h
  | some p0 =>
    rw [hf] at h
    refine ⟨p0, List.mem_of_find?_eq_some hf, ?_⟩
    simpa using h

theorem mem_jsSet {α : Type} (m : List (String × α)) (k : String) (v : α)
    (e : String × α) (he : e ∈ jsSet m k v) : e ∈ m ∨ e.2 = v := by
  unfold jsSet at he
  by_cases hmem : jsHas m k
  · rw [if_pos hmem] at he
    rcases List.mem_map.mp he with ⟨p, hp, hpe⟩
    by_cases hpk : (p.1 == k) = true
    · rw [if_pos hpk] at hpe
      right
      rw [← hpe]
    · rw [if_neg hpk] at hpe
      left
      rw [← hpe]
      exact hp
  · rw [if_neg hmem] at he
    rcases List.mem_append.mp he with h1 | h1
    · left; exact h1
    · right
      rw [List.mem_singleton.mp h1]

theorem submitVote_categories (σ : ServerState) (p d c o : String)
    (t : Nat) : (submitVote σ p d c o t).1.categories = σ.categories := by
  unfold submitVote
  cases hcs : σ.currentVotingSession with
  | none => rfl
  | some s =>
    by_cases hph : s.phase = Phase.voting
    · by_cases hd : d = ""
      · simp [hph, hd]
      · cases hdv : jsHas σ.deviceVotes (d ++ "-" ++ c) with
        | true => simp [hph, hd, hdv]
        | false =>
          cases hpv : jsHas σ.participantVotes (p ++ "-" ++ c) with
          | true => simp [hph, hd, hdv, hpv]
          | false => simp [hph, hd, hdv, hpv]
    · simp [hph]

theorem commitVote_categories (σ : ServerState) (v : QueuedVote) :
    (commitVote σ v).categories = σ.categories := by
  unfold commitVote
  cases σ.currentVotingSession <;> rfl

theorem foldl_commitVote_categories (batch : List QueuedVote)
    (σ : ServerState) :
    (batch.foldl commitVote σ).categories = σ.categories := by
  induction batch generalizing σ with
  | nil => rfl
  | cons v rest ih =>
    rw [List.foldl_cons, ih, commitVote_categories]

theorem tallyCopy_statusOf (σ : ServerState) (cid : String) :
    statusOf (tallyCopy σ) cid = statusOf σ cid := by
  unfold tallyCopy
  cases hcs : σ.currentVotingSession with
  | none => rfl
  | some s =>
    simp only [hcs]
    cases hg : jsGet σ.categories s.categoryId with
    | none => rfl
    | some st =>
      simp only [hg]
      unfold statusOf
      simp only
      rw [jsGet_jsSet]
      by_cases hcc : cid = s.categoryId
      · rw [if_pos hcc, hcc, hg]
      · rw [if_neg hcc]

theorem processVoteBatch_statusOf (σ : ServerState) (cid : String) :
    statusOf (processVoteBatch σ).1 cid = statusOf σ cid := by
  unfold processVoteBatch
  cases hq : σ.voteQueue with
  | nil => rfl
  | cons v rest =>
    cases hcs : σ.currentVotingSession with
    | none => simp only [hcs]; rfl
    | some s =>
      simp only [hcs]
      rw [tallyCopy_statusOf]
      unfold statusOf
      rw [foldl_commitVote_categories]

theorem joinVoting_categories (σ : ServerState) (p n : String) :
    (joinVoting σ p n).1.categories = σ.categories := by
  unfold joinVoting
  cases hg : jsGet σ.participants p <;> simp [hg]

theorem stopCategory_noSession (σ : ServerState) (cid : String) (now : Nat)
    (hcs : σ.currentVotingSession = none) :
    stopCategory σ cid now = (σ, .noActiveSessionForCategory, [errEmit]) := by
  unfold stopCategory
  simp only [hcs]

theorem stopCategory_mismatch (σ : ServerState) (cid : String) (now : Nat)
    (s : Session) (hcs : σ.currentVotingSession = some s)
    (hne : s.categoryId ≠ cid) :
    stopCategory σ cid now = (σ, .noActiveSessionForCategory, [errEmit]) := by
  unfold stopCategory
  simp only [hcs]
  rw [if_pos hne]

theorem stopCategory_ok_nocat (σ : ServerState) (cid : String) (now : Nat)
    (s : Session) (hcs : σ.currentVotingSession = some s)
    (he : s.categoryId = cid) (hg : jsGet σ.categories cid = none) :
    (stopCategory σ cid now).2.1 = .ok ∧
    (stopCategory σ cid now).1.categories = σ.categories := by
  unfold stopCategory
  simp only [hcs, hg]
  rw [if_neg (by simp [he])]
  exact ⟨rfl, rfl⟩

theorem stopCategory_ok_cat (σ : ServerState) (cid : String) (now : Nat)
    (s : Session) (st : CategoryState)
    (hcs : σ.currentVotingSession = some s) (he : s.categoryId = cid)
    (hg : jsGet σ.categories cid = some st) :
    (stopCategory σ cid now).2.1 = .ok ∧
    (stopCategory σ cid now).1.categories = jsSet σ.categories cid
      { st with status := .completed, completedAt := some now,
                results := s.results, voteCount := sumCounts s.results } := by
  unfold stopCategory
  simp only [hcs, hg]
  rw [if_neg (by simp [he])]
  exact ⟨rfl, rfl⟩

/-! ## Lifecycle preservation -/

theorem wfCategories_jsSet (m : List (String × CategoryState)) (k : String)
    (v : CategoryState) (hm : ∀ e ∈ m, e.2.status ≠ CatStatus.notStarted)
    (hv : v.status ≠ CatStatus.notStarted) :
    ∀ e ∈ jsSet m k v, e.2.status ≠ CatStatus.notStarted := by
  intro e he
  rcases mem_jsSet m k v e he with h1 | h1
  · exact hm e h1
  · rw [h1]; exact hv

theorem initState_wfCategories (seed : List CategoryRow) :
    wfCategories (initState seed) := by
  intro e he
  simp [initState] at he

theorem tallyCopy_wf (σ : ServerState) (h : wfCategories σ) :
    wfCategories (tallyCopy σ) := by
  unfold tallyCopy
  cases hcs : σ.currentVotingSession with
  | none => exact h
  | some s =>
    simp only [hcs]
    cases hg : jsGet σ.categories s.categoryId with
    | none => exact h
    | some st =>
      simp only [hg]
      intro e he
      refine wfCategories_jsSet σ.categories s.categoryId _ h ?_ e he
      rcases jsGet_mem σ.categories s.categoryId st hg with ⟨p, hp, hpe⟩
      have hw := h p hp
      rw [hpe] at hw
      exact hw

theorem step_preserves_wfCategories (σ : ServerState) (c : Cmd)
    (h : wfCategories σ) : wfCategories (step σ c) := by
  cases c with
  | reset => intro e he; exact h e he
  | queryVotingStatus => exact h
  | queryAdminStatus => exact h
  | join p n =>
    intro e he
    have hc2 : (step σ (Cmd.join p n)).categories = σ.categories :=
      joinVoting_categories σ p n
    rw [hc2] at he
    exact h e he
  | submit p d c0 o t =>
    intro e he
    have hc2 : (step σ (Cmd.submit p d c0 o t)).categories = σ.categories :=
      submitVote_categories σ p d c0 o t
    rw [hc2] at he
    exact h e he
  | drain =>
    show wfCategories (processVoteBatch σ).1
    unfold processVoteBatch
    cases hq : σ.voteQueue with
    | nil => exact h
    | cons v rest =>
      cases hcs : σ.currentVotingSession with
      | none =>
        simp only [hcs]
        exact h
      | some s =>
        simp only [hcs]
        apply tallyCopy_wf
        intro e he
        rw [foldl_commitVote_categories] at he
        exact h e he
  | start cid0 now0 =>
    show wfCategories (startCategory σ cid0 now0).1
    cases hf : σ.dbCategories.find? (fun cr => cr.id == cid0) with
    | none =>
      have hst : (startCategory σ cid0 now0).1 = σ := by
        rw [startCategory_notFound σ cid0 now0 hf]
      rw [hst]; exact h
    | some category =>
      cases helim : (jsGet σ.categories cid0).elim false
          (fun st => st.status == CatStatus.active ||
            st.status == CatStatus.completed) with
      | true =>
        have hst : (startCategory σ cid0 now0).1 = σ := by
          rw [startCategory_activeOrCompleted σ cid0 now0 category hf helim]
        rw [hst]; exact h
      | false =>
        cases hs : sessionActive σ with
        | true =>
          have hst : (startCategory σ cid0 now0).1 = σ := by
            rw [startCategory_sessionBusy σ cid0 now0 category hf helim hs]
          rw [hst]; exact h
        | false =>
          have he := startCategory_ok_effects σ cid0 now0 category hf helim hs
          intro e hme
          rw [he.2.1] at hme
          exact wfCategories_jsSet σ.categories cid0 _ h (by intro hx; cases hx) e hme
  | stop cid0 now0 =>
    show wfCategories (stopCategory σ cid0 now0).1
    cases hcs : σ.currentVotingSession with
    | none =>
      have hst : (stopCategory σ cid0 now0).1 = σ := by
        rw [stopCategory_noSession σ cid0 now0 hcs]
      rw [hst]; exact h
    | some s =>
      by_cases hne : s.categoryId = cid0
      · cases hg : jsGet σ.categories cid0 with
        | none =>
          intro e hme
          rw [(stopCategory_ok_nocat σ cid0 now0 s hcs hne hg).2] at hme
          exact h e hme
        | some st =>
          intro e hme
          rw [(stopCategory_ok_cat σ cid0 now0 s st hcs hne hg).2] at hme
          exact wfCategories_jsSet σ.categories cid0 _ h (by intro hx; cases hx) e hme
      · have hst : (stopCategory σ cid0 now0).1 = σ := by
          rw [stopCategory_mismatch σ cid0 now0 s hcs hne]
        rw [hst]; exact h
  | reveal cid0 now0 =>
    show wfCategories (revealWinner σ cid0 now0).1
    cases hg : jsGet σ.categories cid0 with
    | none =>
      have hnc := revealWinner_notCompleted σ cid0 now0
        (by unfold statusOf; rw [hg]; decide)
      rw [hnc.2]; exact h
    | some st =>
      by_cases hstc : st.status = CatStatus.completed
      · cases hr : st.revealed with
        | true =>
          have har := revealWinner_alreadyRevealed σ cid0 now0 st hg hstc hr
          rw [har.2]; exact h
        | false =>
          have heff := revealWinner_ok_effects σ cid0 now0 st hg hstc hr
          intro e hme
          rw [heff.2.1] at hme
          exact wfCategories_jsSet σ.categories cid0 _ h (by intro hx; cases hx) e hme
      · have hnc := revealWinner_notCompleted σ cid0 now0
          (by unfold statusOf; rw [hg]; exact hstc)
        rw [hnc.2]; exact h

theorem run_preserves_wfCategories (σ : ServerState) (l : List Cmd)
    (h : wfCategories σ) : wfCategories (run σ l) := by
  induction l generalizing σ with
  | nil => exact h
  | cons c rest ih => exact ih (step σ c) (step_preserves_wfCategories σ c h)

/-- Claim C4 counterexample: after start-stop-reveal of category `a` its
status is `revealed`, yet a further stop command moves it backward to
`completed` and a start command re-enters `active` — both contradict the
strictly-forward claim. -/
theorem category_status_moves_backward_after_reveal :
    statusOf exRevealed "a" = .revealed ∧
    statusOf (step exRevealed (.stop "a" 4)) "a" = .completed ∧
    statusOf (step exRevealed (.start "a" 5)) "a" = .active := by decide

/-- Claim C4 (amended): over the server's commands other than reset, a
category's status never skips a state and moves along
`not-started → active → completed → revealed`, except that the `revealed`
state can be left backward: stop-category on a revealed category whose
session is still current returns it to `completed`, and start-category on
a revealed category re-enters `active`. (The well-formedness hypothesis —
no stored category entry carries the not-started status — holds in every
reachable state by `initState_wfCategories` and
`step_preserves_wfCategories`.) -/
theorem category_status_forward_except_from_revealed
    (σ : ServerState) (h : wfCategories σ) (c : Cmd)
    (hc : isResetCmd c = false) (cid : String) :
    forwardStep (statusOf σ cid) (statusOf (step σ c) cid) = true := by
  cases c with
  | reset => simp [isResetCmd] at hc
  | queryVotingStatus => exact forwardStep_refl _
  | queryAdminStatus => exact forwardStep_refl _
  | join p n =>
    have hcat2 : (step σ (Cmd.join p n)).categories = σ.categories :=
      joinVoting_categories σ p n
    rw [statusOf_eq_of_categories _ σ cid hcat2]
    exact forwardStep_refl _
  | submit p d c0 o t =>
    have hcat2 : (step σ (Cmd.submit p d c0 o t)).categories =
        σ.categories := submitVote_categories σ p d c0 o t
    rw [statusOf_eq_of_categories _ σ cid hcat2]
    exact forwardStep_refl _
  | drain =>
    have h2 : statusOf (step σ Cmd.drain) cid = statusOf σ cid :=
      processVoteBatch_statusOf σ cid
    rw [h2]
    exact forwardStep_refl _
  | start cid0 now0 =>
    show forwardStep (statusOf σ cid)
      (statusOf (startCategory σ cid0 now0).1 cid) = true
    cases hf : σ.dbCategories.find? (fun cr => cr.id == cid0) with
    | none =>
      have hst : (startCategory σ cid0 now0).1 = σ := by
        rw [startCategory_notFound σ cid0 now0 hf]
      rw [hst]; exact forwardStep_refl _
    | some category =>
      cases helim : (jsGet σ.categories cid0).elim false
          (fun st => st.status == CatStatus.active ||
            st.status == CatStatus.completed) with
      | true =>
        have hst : (startCategory σ cid0 now0).1 = σ := by
          rw [startCategory_activeOrCompleted σ cid0 now0 category hf helim]
        rw [hst]; exact forwardStep_refl _
      | false =>
        cases hs : sessionActive σ with
        | true =>
          have hst : (startCategory σ cid0 now0).1 = σ := by
            rw [startCategory_sessionBusy σ cid0 now0 category hf helim hs]
          rw [hst]; exact forwardStep_refl _
        | false =>
          have he := startCategory_ok_effects σ cid0 now0 category hf helim hs
          by_cases hcc : cid = cid0
          · subst hcc
            have hpost : statusOf (startCategory σ cid now0).1 cid =
                .active := by
              unfold statusOf
              rw [he.2.1, jsGet_jsSet_self]
            rw [hpost]
            cases hg : jsGet σ.categories cid with
            | none =>
              have hpre : statusOf σ cid = .notStarted := by
                unfold statusOf; rw [hg]
              rw [hpre]; rfl
            | some st =>
              rw [hg] at helim
              simp only [Option.elim] at helim
              have hwf : st.status ≠ CatStatus.notStarted := by
                rcases jsGet_mem σ.categories cid st hg with ⟨p, hp, hpe⟩
                have hw := h p hp
                rw [hpe] at hw
                exact hw
              have hpre : statusOf σ cid = st.status := by
                unfold statusOf; rw [hg]
              rw [hpre]
              cases hstv : st.status with
              | notStarted => exact absurd hstv hwf
              | active => rw [hstv] at helim; simp at helim
              | completed => rw [hstv] at helim; simp at helim
              | revealed => rfl
          · have hpost : statusOf (startCategory σ cid0 now0).1 cid =
                statusOf σ cid := by
              unfold statusOf
              rw [he.2.1, jsGet_jsSet_ne _ _ _ _ hcc]
            rw [hpost]; exact forwardStep_refl _
  | stop cid0 now0 =>
    show forwardStep (statusOf σ cid)
      (statusOf (stopCategory σ cid0 now0).1 cid) = true
    cases hcs : σ.currentVotingSession with
    | none =>
      have hst : (stopCategory σ cid0 now0).1 = σ := by
        rw [stopCategory_noSession σ cid0 now0 hcs]
      rw [hst]; exact forwardStep_refl _
    | some s =>
      by_cases hne : s.categoryId = cid0
      · cases hg : jsGet σ.categories cid0 with
        | none =>
          have heff := stopCategory_ok_nocat σ cid0 now0 s hcs hne hg
          rw [statusOf_eq_of_categories _ σ cid heff.2]
          exact forwardStep_refl _
        | some st =>
          have heff := stopCategory_ok_cat σ cid0 now0 s st hcs hne hg
          by_cases hcc : cid = cid0
          · subst hcc
            have hpost : statusOf (stopCategory σ cid now0).1 cid =
                .completed := by
              unfold statusOf
              rw [heff.2, jsGet_jsSet_self]
            have hpre : statusOf σ cid = st.status := by
              unfold statusOf; rw [hg]
            rw [hpost, hpre]
            have hwf : st.status ≠ CatStatus.notStarted := by
              rcases jsGet_mem σ.categories cid st hg with ⟨p, hp, hpe⟩
              have hw := h p hp
              rw [hpe] at hw
              exact hw
            cases hstv : st.status with
            | notStarted => exact absurd hstv hwf
            | active => rfl
            | completed => rfl
            | revealed => rfl
          · have hpost : statusOf (stopCategory σ cid0 now0).1 cid =
                statusOf σ cid := by
              unfold statusOf
              rw [heff.2, jsGet_jsSet_ne _ _ _ _ hcc]
            rw [hpost]; exact forwardStep_refl _
      · have hst : (stopCategory σ cid0 now0).1 = σ := by
          rw [stopCategory_mismatch σ cid0 now0 s hcs hne]
        rw [hst]; exact forwardStep_refl _
  | reveal cid0 now0 =>
    show forwardStep (statusOf σ cid)
      (statusOf (revealWinner σ cid0 now0).1 cid) = true
    cases hg : jsGet σ.categories cid0 with
    | none =>
      have hnc := revealWinner_notCompleted σ cid0 now0
        (by unfold statusOf; rw [hg]; decide)
      rw [hnc.2]; exact forwardStep_refl _
    | some st =>
      by_cases hstc : st.status = CatStatus.completed
      · cases hr : st.revealed with
        | true =>
          have har := revealWinner_alreadyRevealed σ cid0 now0 st hg hstc hr
          rw [har.2]; exact forwardStep_refl _
        | false =>
          have heff := revealWinner_ok_effects σ cid0 now0 st hg hstc hr
          by_cases hcc : cid = cid0
          · subst hcc
            have hpost : statusOf (revealWinner σ cid now0).1 cid =
                .revealed := by
              unfold statusOf
              rw [heff.2.1, jsGet_jsSet_self]
            have hpre : statusOf σ cid = st.status := by
              unfold statusOf; rw [hg]
            rw [hpost, hpre, hstc]
            rfl
          · have hpost : statusOf (revealWinner σ cid0 now0).1 cid =
                statusOf σ cid := by
              unfold statusOf
              rw [heff.2.1, jsGet_jsSet_ne _ _ _ _ hcc]
            rw [hpost]; exact forwardStep_refl _
      · have hnc := revealWinner_notCompleted σ cid0 now0
          (by unfold statusOf; rw [hg]; exact hstc)
        rw [hnc.2]; exact forwardStep_refl _

theorem category_status_forward_except_from_revealed_witness :
    wfCategories exRevealed ∧ isResetCmd (Cmd.stop "a" 4) = false ∧
    forwardStep (statusOf exRevealed "a")
      (statusOf (step exRevealed (Cmd.stop "a" 4)) "a") = true := by
  refine ⟨by decide, by decide, ?_⟩
  exact category_status_forward_except_from_revealed exRevealed (by decide)
    (Cmd.stop "a" 4) (by decide) "a"

/-! ## Emission lemmas -/

theorem startCategory_ok_emits (σ : ServerState) (cid : String)
    (now : Nat) (category : CategoryRow)
    (hf : σ.dbCategories.find? (fun cr => cr.id == cid) = some category)
    (helim : (jsGet σ.categories cid).elim false
      (fun st => st.status == CatStatus.active ||
        st.status == CatStatus.completed) = false)
    (hs : sessionActive σ = false) :
    (startCategory σ cid now).2.2 =
      [{ target := .voting, event := "category-started",
         results := some [] },
       { target := .admin, event := "category-started",
         results := some [] },
       adminStatusEmit (startCategory σ cid now).1] := by
  unfold startCategory
  simp only [hf]
  rw [if_neg (by simp [helim]), if_neg (by simp [hs])]

theorem stopCategory_ok_emits (σ : ServerState) (cid : String) (now : Nat)
    (s : Session) (hcs : σ.currentVotingSession = some s)
    (he : s.categoryId = cid) :
    (stopCategory σ cid now).2.2 =
      [{ target := .voting, event := "category-stopped",
         results := some [] },
       { target := .admin, event := "category-stopped",
         results := some s.results },
       adminStatusEmit (stopCategory σ cid now).1] := by
  unfold stopCategory
  simp only [hcs]
  rw [if_neg (by simp [he])]

theorem submitVote_ok_emits (σ : ServerState) (p d c o : String) (t : Nat)
    (hs : sessionVoting σ = true) (hd : d ≠ "")
    (hdv : jsHas σ.deviceVotes (d ++ "-" ++ c) = false)
    (hpv : jsHas σ.participantVotes (p ++ "-" ++ c) = false) :
    (submitVote σ p d c o t).2.2 =
      [{ target := .caller, event := "vote-confirmed" }] := by
  unfold sessionVoting at hs
  unfold submitVote
  cases hcs : σ.currentVotingSession with
  | none => rw [hcs] at hs; simp at hs
  | some s =>
    rw [hcs] at hs
    have hph : s.phase = Phase.voting := by simpa using hs
    simp [hph, hd, hdv, hpv]

/-- Claim C6: every emission any handler sends to the participant audience
(the voting room, the requesting socket, or an `io.emit` broadcast) other
than the winner-revealed event carries no tallies: its `results` field is
absent or the empty mapping, it nests no per-category results and no
winner or total; the one exception, winner-revealed, is broadcast to every
client with the full tally, winner and total. -/
theorem participant_events_carry_no_tallies (σ : ServerState) (c : Cmd) :
    (∀ e ∈ (stepE σ c).2,
      (e.target = .voting ∨ e.target = .caller ∨ e.target = .all) →
      e.event ≠ "winner-revealed" →
      (e.results = none ∨ e.results = some []) ∧ e.catResults = [] ∧
      e.winner = none ∧ e.totalVotes = none) ∧
    (∀ cid now st, jsGet σ.categories cid = some st →
      st.status = .completed → st.revealed = false →
      (revealWinner σ cid now).2.2 =
        [{ target := .all, event := "winner-revealed",
           results := some st.results,
           winner := some (jsWinnerOf st.results),
           totalVotes := some (sumCounts st.results) }]) := by
  constructor
  · intro e he ht hev
    cases c with
    | reset => simp [stepE] at he
    | queryVotingStatus =>
      simp only [stepE, requestVotingStatus] at he
      cases hcs : σ.currentVotingSession with
      | none =>
        rw [hcs] at he
        simp only [List.mem_singleton] at he
        subst he
        exact ⟨Or.inl rfl, rfl, rfl, rfl⟩
      | some s =>
        rw [hcs] at he
        simp only [List.mem_singleton] at he
        subst he
        exact ⟨Or.inr rfl, rfl, rfl, rfl⟩
    | queryAdminStatus =>
      simp only [stepE, requestAdminStatus, List.mem_singleton] at he
      subst he
      cases hcs : σ.currentVotingSession with
      | none => exact ⟨Or.inl (by simp [hcs]), rfl, rfl, rfl⟩
      | some s => exact ⟨Or.inr (by simp [hcs]), rfl, rfl, rfl⟩
    | join p n =>
      simp only [stepE, joinVoting] at he
      cases hg : jsGet σ.participants p with
      | some q =>
        rw [hg] at he
        cases hcs : σ.currentVotingSession with
        | none =>
          rw [hcs] at he
          simp only [List.nil_append, List.mem_cons,
            List.mem_singleton, List.not_mem_nil, or_false] at he
          rcases he with rfl | rfl
          · exact ⟨Or.inl rfl, rfl, rfl, rfl⟩
          · exact ⟨Or.inl rfl, rfl, rfl, rfl⟩
        | some s =>
          rw [hcs] at he
          simp only [List.cons_append, List.nil_append, List.mem_cons,
            List.mem_singleton, List.not_mem_nil, or_false] at he
          rcases he with rfl | rfl | rfl
          · exact ⟨Or.inr rfl, rfl, rfl, rfl⟩
          · exact ⟨Or.inl rfl, rfl, rfl, rfl⟩
          · exact ⟨Or.inl rfl, rfl, rfl, rfl⟩
      | none =>
        rw [hg] at he
        cases hcs : σ.currentVotingSession with
        | none =>
          rw [hcs] at he
          simp only [List.nil_append, List.mem_cons,
            List.mem_singleton, List.not_mem_nil, or_false] at he
          rcases he with rfl | rfl | rfl
          · exact ⟨Or.inl rfl, rfl, rfl, rfl⟩
          · rcases ht with h2 | h2 | h2 <;> cases h2
          · exact ⟨Or.inl rfl, rfl, rfl, rfl⟩
        | some s =>
          rw [hcs] at he
          simp only [List.cons_append, List.nil_append, List.mem_cons,
            List.mem_singleton, List.not_mem_nil, or_false] at he
          rcases he with rfl | rfl | rfl | rfl
          · exact ⟨Or.inr rfl, rfl, rfl, rfl⟩
          · exact ⟨Or.inl rfl, rfl, rfl, rfl⟩
          · rcases ht with h2 | h2 | h2 <;> cases h2
          · exact ⟨Or.inl rfl, rfl, rfl, rfl⟩
    | submit p d c0 o t =>
      have hsub : (stepE σ (Cmd.submit p d c0 o t)).2 =
          (submitVote σ p d c0 o t).2.2 := rfl
      rw [hsub] at he
      cases hsv : sessionVoting σ with
      | false =>
        rw [(submitVote_cases σ p d c0 o t).1 hsv] at he
        simp only [List.mem_singleton] at he
        subst he
        exact ⟨Or.inl rfl, rfl, rfl, rfl⟩
      | true =>
        by_cases hd : d = ""
        · rw [(submitVote_cases σ p d c0 o t).2.1 hsv hd] at he
          simp only [List.mem_singleton] at he
          subst he
          exact ⟨Or.inl rfl, rfl, rfl, rfl⟩
        · cases hdv : jsHas σ.deviceVotes (d ++ "-" ++ c0) with
          | true =>
            rw [(submitVote_cases σ p d c0 o t).2.2.1 hsv hd hdv] at he
            simp only [List.mem_singleton] at he
            subst he
            exact ⟨Or.inl rfl, rfl, rfl, rfl⟩
          | false =>
            cases hpv : jsHas σ.participantVotes (p ++ "-" ++ c0) with
            | true =>
              rw [(submitVote_cases σ p d c0 o t).2.2.2 hsv hd hdv hpv]
                at he
              simp only [List.mem_singleton] at he
              subst he
              exact ⟨Or.inl rfl, rfl, rfl, rfl⟩
            | false =>
              rw [submitVote_ok_emits σ p d c0 o t hsv hd hdv hpv] at he
              simp only [List.mem_singleton] at he
              subst he
              exact ⟨Or.inl rfl, rfl, rfl, rfl⟩
    | drain =>
      have hsub : (stepE σ Cmd.drain).2 = (processVoteBatch σ).2 := rfl
      rw [hsub] at he
      unfold processVoteBatch at he
      cases hq : σ.voteQueue with
      | nil => rw [hq] at he; simp at he
      | cons v rest =>
        rw [hq] at he
        cases hcs : σ.currentVotingSession with
        | none =>
          rw [hcs] at he
          simp at he
        | some s =>
          rw [hcs] at he
          simp only [List.mem_cons, List.mem_singleton,
            List.not_mem_nil, or_false] at he
          rcases he with rfl | rfl
          · rcases ht with h2 | h2 | h2 <;> cases h2
          · rcases ht with h2 | h2 | h2 <;> cases h2
    | start cid0 now0 =>
      have hsub : (stepE σ (Cmd.start cid0 now0)).2 =
          (startCategory σ cid0 now0).2.2 := rfl
      rw [hsub] at he
      cases hf : σ.dbCategories.find? (fun cr => cr.id == cid0) with
      | none =>
        rw [startCategory_notFound σ cid0 now0 hf] at he
        simp only [List.mem_singleton] at he
        subst he
        exact ⟨Or.inl rfl, rfl, rfl, rfl⟩
      | some category =>
        cases helim : (jsGet σ.categories cid0).elim false
            (fun st => st.status == CatStatus.active ||
              st.status == CatStatus.completed) with
        | true =>
          rw [startCategory_activeOrCompleted σ cid0 now0 category hf helim]
            at he
          simp only [List.mem_singleton] at he
          subst he
          exact ⟨Or.inl rfl, rfl, rfl, rfl⟩
        | false =>
          cases hs : sessionActive σ with
          | true =>
            rw [startCategory_sessionBusy σ cid0 now0 category hf helim hs]
              at he
            simp only [List.mem_singleton] at he
            subst he
            exact ⟨Or.inl rfl, rfl, rfl, rfl⟩
          | false =>
            rw [startCategory_ok_emits σ cid0 now0 category hf helim hs]
              at he
            simp only [List.mem_cons, List.mem_singleton,
              List.not_mem_nil, or_false] at he
            rcases he with rfl | rfl | rfl
            · exact ⟨Or.inr rfl, rfl, rfl, rfl⟩
            · rcases ht with h2 | h2 | h2 <;> cases h2
            · rcases ht with h2 | h2 | h2 <;> cases h2
    | stop cid0 now0 =>
      have hsub : (stepE σ (Cmd.stop cid0 now0)).2 =
          (stopCategory σ cid0 now0).2.2 := rfl
      rw [hsub] at he
      cases hcs : σ.currentVotingSession with
      | none =>
        rw [stopCategory_noSession σ cid0 now0 hcs] at he
        simp only [List.mem_singleton] at he
        subst he
        exact ⟨Or.inl rfl, rfl, rfl, rfl⟩
      | some s =>
        by_cases hne : s.categoryId = cid0
        · rw [stopCategory_ok_emits σ cid0 now0 s hcs hne] at he
          simp only [List.mem_cons, List.mem_singleton,
            List.not_mem_nil, or_false] at he
          rcases he with rfl | rfl | rfl
          · exact ⟨Or.inr rfl, rfl, rfl, rfl⟩
          · rcases ht with h2 | h2 | h2 <;> cases h2
          · rcases ht with h2 | h2 | h2 <;> cases h2
        · rw [stopCategory_mismatch σ cid0 now0 s hcs hne] at he
          simp only [List.mem_singleton] at he
          subst he
          exact ⟨Or.inl rfl, rfl, rfl, rfl⟩
    | reveal cid0 now0 =>
      have hsub : (stepE σ (Cmd.reveal cid0 now0)).2 =
          (revealWinner σ cid0 now0).2.2 := rfl
      rw [hsub] at he
      cases hg : jsGet σ.categories cid0 with
      | none =>
        have hnc : revealWinner σ cid0 now0 =
            (σ, .notCompleted, [errEmit]) := by
          unfold revealWinner
          simp only [hg]
        rw [hnc] at he
        simp only [List.mem_singleton] at he
        subst he
        exact ⟨Or.inl rfl, rfl, rfl, rfl⟩
      | some st =>
        by_cases hstc : st.status = CatStatus.completed
        · cases hr : st.revealed with
          | true =>
            have har : revealWinner σ cid0 now0 =
                (σ, .alreadyRevealed, [errEmit]) := by
              unfold revealWinner
              simp only [hg]
              rw [if_neg (by simp [hstc]), if_pos hr]
            rw [har] at he
            simp only [List.mem_singleton] at he
            subst he
            exact ⟨Or.inl rfl, rfl, rfl, rfl⟩
          | false =>
            have heff := revealWinner_ok_effects σ cid0 now0 st hg hstc hr
            rw [heff.2.2] at he
            simp only [List.mem_singleton] at he
            subst he
            exact absurd rfl hev
        · have hnc : revealWinner σ cid0 now0 =
              (σ, .notCompleted, [errEmit]) := by
            unfold revealWinner
            simp only [hg]
            rw [if_pos hstc]
          rw [hnc] at he
          simp only [List.mem_singleton] at he
          subst he
          exact ⟨Or.inl rfl, rfl, rfl, rfl⟩
  · intro cid now st hg hs hr
    exact (revealWinner_ok_effects σ cid now st hg hs hr).2.2

theorem participant_events_carry_no_tallies_witness :
    (exEmitVS.results = none ∨ exEmitVS.results = some []) ∧
    exEmitVS ∈ (stepE exOneVote Cmd.queryVotingStatus).2 ∧
    (revealWinner exStopped "a" 2).2.2 =
      [{ target := .all, event := "winner-revealed", results := some [],
         winner := some (.tied []), totalVotes := some 0 }] := by
  have h1 := participant_events_carry_no_tallies exOneVote
    Cmd.queryVotingStatus
  have h2 := participant_events_carry_no_tallies exStopped Cmd.drain
  refine ⟨(h1.1 exEmitVS (by decide) (by decide) (by decide)).1,
    by decide, ?_⟩
  have hfull := h2.2 "a" 2
    { status := .completed, voteCount := 0, results := [],
      revealed := false, startedAt := some 0, completedAt := some 1,
      revealedAt := none } (by decide) (by decide) (by decide)
  exact hfull

end LiveVoting
